import Mathlib

/-!
Shallow embedding of the Yul_apps flashcard review engine
(src/books/book_reader_base.js) and the book data management module
(src/unnamed/part_000), together with proofs about the spaced-repetition
scheduler, the session cursor, and progress persistence.

Conventions: JS epoch-millisecond timestamps are `Int`; the JS object
`this.progress.vocabulary` (word → word-progress) is an association list
looked up by first matching key; JS property assignment replaces the
binding.  `localStorage` is modelled explicitly where a claim needs it.
-/

/-- A vocabulary item as supplied by `bookData.vocabulary`:
`{word, meaning, example}` (all strings, immutable). -/
structure Vocab where
  word : String
  meaning : String
  «example» : String
deriving Repr, DecidableEq

/-- Per-word progress record, as stored in `progress.vocabulary[word]`:
`{learned, correctCount, lastReview, nextReview}`. -/
structure WordProgress where
  learned : Bool
  correctCount : Nat
  lastReview : Int
  nextReview : Int
deriving Repr, DecidableEq

/-- The word → WordProgress mapping (a JS object keyed by word string). -/
abbrev ProgressMap := List (String × WordProgress)

/-- Property read `progress.vocabulary[w]`: first binding with key `w`. -/
def lookupProgress : ProgressMap → String → Option WordProgress
  | [], _ => none
  | kv :: rest, w => if kv.1 = w then some kv.2 else lookupProgress rest w

/-- Property write `progress.vocabulary[w] = wp`: replace the binding if
present, otherwise add it. -/
def setProgress : ProgressMap → String → WordProgress → ProgressMap
  | [], w, wp => [(w, wp)]
  | kv :: rest, w, wp =>
      if kv.1 = w then (w, wp) :: rest else kv :: setProgress rest w wp

/-- The virtual default used by `getWordsToReview` for a word absent from
the progress map: `{learned:false, nextReview:now, correctCount:0}`
(the JS literal has no `lastReview` field; the predicate never reads it,
we set it to `now`). -/
def defaultWordProgress (now : Int) : WordProgress :=
  { learned := false, correctCount := 0, lastReview := now, nextReview := now }

/-- `BookReader.getWordsToReview` (book_reader_base.js:573-585): filter the
book's vocabulary, keeping a word when `!wordProgress.learned ||
wordProgress.nextReview <= now`, with the virtual default for absent words. -/
def getWordsToReview (vocab : List Vocab) (progress : ProgressMap) (now : Int) :
    List Vocab :=
  vocab.filter (fun word =>
    let wordProgress := (lookupProgress progress word.word).getD (defaultWordProgress now)
    !wordProgress.learned || decide (wordProgress.nextReview ≤ now))

/-- The per-word state transition inside `BookReader.answerWord`
(book_reader_base.js:633-648): on `knew`, increment `correctCount`; at 3 or
more set `learned` and schedule one week out, otherwise two days out; on a
miss reset `correctCount` to 0 and schedule one hour out.  `lastReview` is
set to `now` unconditionally. -/
def answerTransition (wordProgress : WordProgress) (knew : Bool) (now : Int) :
    WordProgress :=
  if knew then
    let correctCount := wordProgress.correctCount + 1
    if correctCount ≥ 3 then
      { wordProgress with
          correctCount := correctCount
          learned := true
          nextReview := now + 7 * 24 * 60 * 60 * 1000
          lastReview := now }
    else
      { wordProgress with
          correctCount := correctCount
          nextReview := now + 2 * 24 * 60 * 60 * 1000
          lastReview := now }
  else
    { wordProgress with
        correctCount := 0
        nextReview := now + 60 * 60 * 1000
        lastReview := now }

/-- The progress-map effect of `BookReader.answerWord` (book_reader_base.js:
618-649): initialise the word's entry to
`{learned:false, correctCount:0, lastReview:now, nextReview:now}` when
absent, then apply the answer transition to it. -/
def recordAnswer (word : String) (knew : Bool) (progress : ProgressMap)
    (now : Int) : ProgressMap :=
  let wordProgress := (lookupProgress progress word).getD
    { learned := false, correctCount := 0, lastReview := now, nextReview := now }
  setProgress progress word (answerTransition wordProgress knew now)

theorem lookupProgress_setProgress_self (p : ProgressMap) (w : String)
    (wp : WordProgress) : lookupProgress (setProgress p w wp) w = some wp := by
  induction p with
  | nil => simp [setProgress, lookupProgress]
  | cons kv rest ih =>
      by_cases h : kv.1 = w
      · simp [setProgress, lookupProgress, h]
      · simp [setProgress, lookupProgress, h, ih]

theorem lookupProgress_setProgress_ne (p : ProgressMap) (w w' : String)
    (wp : WordProgress) (h : w' ≠ w) :
    lookupProgress (setProgress p w wp) w' = lookupProgress p w' := by
  have h' : ¬ w = w' := fun e => h e.symm
  induction p with
  | nil => simp [setProgress, lookupProgress, h']
  | cons kv rest ih =>
      obtain ⟨k, v⟩ := kv
      by_cases hk : k = w
      · subst hk
        simp [setProgress, lookupProgress, h']
      · simp [setProgress, lookupProgress, hk, ih]

/-- The spec's due criterion, stated from the spec's words (section 4.1):
include the item if `progress.learned == false OR progress.nextReview <=
now`; a word absent from the progress map is due immediately. -/
def specDue (progress : ProgressMap) (v : Vocab) (now : Int) : Prop :=
  match lookupProgress progress v.word with
  | none => True
  | some wp => wp.learned = false ∨ wp.nextReview ≤ now

instance (progress : ProgressMap) (v : Vocab) (now : Int) :
    Decidable (specDue progress v now) := by
  unfold specDue
  cases lookupProgress progress v.word with
  | none => exact inferInstanceAs (Decidable True)
  | some wp => exact inferInstanceAs (Decidable (_ ∨ _))

/-- `BookReader.showNextWord` (book_reader_base.js:559-571): recompute the
due-set; if empty signal completion (`showWordComplete`, modelled as
`none`), else reset the cursor to 0 and display the first due word. -/
def showNextWord (vocab : List Vocab) (progress : ProgressMap) (now : Int) :
    Option (Nat × Vocab) :=
  match getWordsToReview vocab progress now with
  | [] => none
  | w :: _ => some (0, w)

/-- The session-cursor advance at the end of `BookReader.answerWord`
(book_reader_base.js:651-661): update the word's progress, recompute the
due-set, increment `currentWord`, and either display
`wordsToReview[currentWord]` or signal completion (`none`). -/
def answerWordStep (vocab : List Vocab) (progress : ProgressMap)
    (currentWord : Nat) (word : String) (knew : Bool) (now : Int) :
    ProgressMap × Nat × Option Vocab :=
  let progress' := recordAnswer word knew progress now
  let wordsToReview := getWordsToReview vocab progress' now
  let currentWord' := currentWord + 1
  (progress', currentWord',
    if h : currentWord' < wordsToReview.length then
      some (wordsToReview.get ⟨currentWord', h⟩)
    else none)

/-- A study session: run `answerWordStep` over a list of answers
`(word, knew, now)`.  Returns `true` as soon as a step signals completion,
`false` if the answer list runs out first. -/
def sessionRun (vocab : List Vocab) :
    ProgressMap → Nat → List (String × Bool × Int) → Bool
  | _, _, [] => false
  | progress, currentWord, (word, knew, now) :: rest =>
      let step := answerWordStep vocab progress currentWord word knew now
      match step.2.2 with
      | none => true
      | some _ => sessionRun vocab step.1 step.2.1 rest

/-- `BookReader.updateReadProgress` (book_reader_base.js:510-514) restricted
to its store effect: `if (maxIndex >= (lastReadSentence || 0))
lastReadSentence = maxIndex`.  The JS `|| 0` turns a (falsy) stored `0`
into `0` and leaves every other integer alone, which the inner `if`
mirrors. -/
def updateReadProgress (lastReadSentence : Int) (maxIndex : Int) : Int :=
  if (if lastReadSentence = 0 then (0 : Int) else lastReadSentence) ≤ maxIndex
  then maxIndex
  else lastReadSentence

/-- Per-book progress: `{lastReadSentence, vocabulary}`. -/
structure BookProgress where
  lastReadSentence : Int
  vocabulary : ProgressMap
deriving Repr, DecidableEq

/-- The default progress created by `loadProgress` when nothing is stored:
`{lastReadSentence: -1, vocabulary: {}}`. -/
def defaultBookProgress : BookProgress :=
  { lastReadSentence := -1, vocabulary := [] }

/-- What `localStorage.getItem('book_progress_' + id)` can hold, seen
through `JSON.parse`: nothing, a string `JSON.parse` throws on, or a string
parsing to a progress record. -/
inductive StoredValue where
  | missing
  | corrupt
  | parsed (p : BookProgress)
deriving Repr, DecidableEq

/-- `BookReader.loadProgress` (book_reader_base.js:740-750): if a value is
stored, `this.progress = JSON.parse(saved)` — with no `try`/`catch`, so a
corrupt value makes `JSON.parse` throw (modelled as `.error`); if nothing
is stored, the default progress. -/
def loadProgress : StoredValue → Except String BookProgress
  | .missing => .ok defaultBookProgress
  | .corrupt => .error "SyntaxError: JSON.parse"
  | .parsed p => .ok p

/-- A book record as stored in the `yul_english_books` list
(src/unnamed/part_000): only scalar metadata and content lists. -/
structure Book where
  id : String
  title : String
  description : String
  icon : String
  story : List String
  vocabulary : List Vocab
deriving Repr, DecidableEq

/-- The slice of `localStorage` the book data management module touches:
the `yul_english_books` list and the `book_progress_<id>` records. -/
structure BookStorage where
  books : List Book
  progress : List (String × BookProgress)
deriving Repr, DecidableEq

/-- `deleteBook` (src/unnamed/part_000:72-86): filter the stored book list
by `b.id !== bookId`; if nothing was removed return `false` untouched,
else store the filtered list, `localStorage.removeItem` the book's
progress record, and return `true`. -/
def deleteBook (st : BookStorage) (bookId : String) : BookStorage × Bool :=
  let filteredBooks := st.books.filter (fun b => b.id ≠ bookId)
  if filteredBooks.length = st.books.length then
    (st, false)
  else
    ({ books := filteredBooks
       progress := st.progress.filter (fun kv => kv.1 ≠ bookId) }, true)

/-- Lookup of a `book_progress_<id>` record in the storage model. -/
def lookupBookProgress : List (String × BookProgress) → String →
    Option BookProgress
  | [], _ => none
  | kv :: rest, k => if kv.1 = k then some kv.2 else lookupBookProgress rest k

theorem getWordsToReview_length_le (vocab : List Vocab) (progress : ProgressMap)
    (now : Int) : (getWordsToReview vocab progress now).length ≤ vocab.length :=
  List.length_filter_le _ vocab

theorem lookupBookProgress_filter_ne (ps : List (String × BookProgress))
    (k : String) :
    lookupBookProgress (ps.filter (fun kv => kv.1 ≠ k)) k = none := by
  induction ps with
  | nil => rfl
  | cons kv rest ih =>
      by_cases h : kv.1 = k
      · simpa [List.filter_cons, h, decide_not] using ih
      · simpa [List.filter_cons, h, lookupBookProgress, decide_not] using ih

/-- One recorded correct answer starting from an entry with
`correctCount + 1 < 3` (book_reader_base.js:633-642, else-branch). -/
theorem recordAnswer_correct_below_threshold (progress : ProgressMap)
    (word : String) (now : Int) (wp : WordProgress)
    (h : lookupProgress progress word = some wp)
    (hc : wp.correctCount + 1 < 3) :
    lookupProgress (recordAnswer word true progress now) word
      = some ⟨wp.learned, wp.correctCount + 1, now, now + 172800000⟩ := by
  rw [recordAnswer]
  simp only [h, Option.getD_some]
  rw [lookupProgress_setProgress_self, answerTransition]
  simp only [if_pos rfl, if_true]
  rw [if_neg (by omega)]
  norm_num

/-- C1. -/
theorem getWordsToReview_mem_iff_specDue :
    (∀ (vocab : List Vocab) (progress : ProgressMap) (now : Int) (v : Vocab),
        v ∈ getWordsToReview vocab progress now
          ↔ v ∈ vocab ∧ specDue progress v now)
    ∧ ((⟨"cat", "", ""⟩ : Vocab) ∉
        getWordsToReview [⟨"cat", "", ""⟩] [("cat", ⟨true, 3, 0, 10000⟩)] 9999)
    ∧ ((⟨"cat", "", ""⟩ : Vocab) ∈
        getWordsToReview [⟨"cat", "", ""⟩] [("cat", ⟨true, 3, 0, 10000⟩)] 10000) := by
  refine ⟨?_, by decide, by decide⟩
  intro vocab progress now v
  rw [getWordsToReview, List.mem_filter]
  refine and_congr_right fun _ => ?_
  unfold specDue
  cases h : lookupProgress progress v.word with
  | none => simp [h, defaultWordProgress]
  | some wp => simp [h, Bool.or_eq_true, Bool.not_eq_true', decide_eq_true_iff]

/-- C2. -/
theorem recordAnswer_three_correct (progress : ProgressMap) (word : String)
    (t1 t2 t3 : Int) (h : lookupProgress progress word = none) :
    lookupProgress
        (recordAnswer word true
          (recordAnswer word true (recordAnswer word true progress t1) t2) t3)
        word
      = some ⟨true, 3, t3, t3 + 604800000⟩ := by
  have h1 : lookupProgress (recordAnswer word true progress t1) word
      = some ⟨false, 1, t1, t1 + 172800000⟩ := by
    rw [recordAnswer]
    simp only [h, Option.getD_none]
    rw [lookupProgress_setProgress_self, answerTransition]
    norm_num
  have h2 : lookupProgress
      (recordAnswer word true (recordAnswer word true progress t1) t2) word
      = some ⟨false, 2, t2, t2 + 172800000⟩ := by
    rw [recordAnswer]
    simp only [h1, Option.getD_some]
    rw [lookupProgress_setProgress_self, answerTransition]
    norm_num
  rw [recordAnswer]
  simp only [h2, Option.getD_some]
  rw [lookupProgress_setProgress_self, answerTransition]
  norm_num

/-- C2 witness. -/
theorem recordAnswer_three_correct_witness :
    lookupProgress
        (recordAnswer "cat" true
          (recordAnswer "cat" true (recordAnswer "cat" true [] 1000) 2000) 3000)
        "cat"
      = some ⟨true, 3, 3000, 3000 + 604800000⟩ :=
  recordAnswer_three_correct [] "cat" 1000 2000 3000 rfl

/-- C3. -/
theorem recordAnswer_incorrect_resets (progress : ProgressMap) (word : String)
    (now : Int) (wp : WordProgress)
    (h : lookupProgress progress word = some wp) :
    lookupProgress (recordAnswer word false progress now) word
      = some ⟨wp.learned, 0, now, now + 3600000⟩ := by
  rw [recordAnswer]
  simp only [h, Option.getD_some]
  rw [lookupProgress_setProgress_self, answerTransition]
  norm_num

/-- Claim C4, counterexample: a corrupt stored value is not treated as
absent — `loadProgress` propagates the `JSON.parse` exception instead of
producing the default Book Progress. -/
theorem loadProgress_corrupt_error :
    loadProgress StoredValue.corrupt ≠ Except.ok defaultBookProgress
    ∧ loadProgress StoredValue.corrupt
        = Except.error "SyntaxError: JSON.parse" :=
  ⟨fun h => Except.noConfusion h, rfl⟩

/-- Claim C4 (amended): a missing stored value yields the default Book
Progress `{lastReadSentence: -1, vocabulary: {}}` and a parseable stored
value loads as parsed, without error; a corrupt value, however, makes
`JSON.parse` throw (there is no catch). -/
theorem loadProgress_missing_default :
    loadProgress StoredValue.missing = Except.ok defaultBookProgress
    ∧ (∀ p : BookProgress, loadProgress (StoredValue.parsed p) = Except.ok p)
    ∧ defaultBookProgress
        = { lastReadSentence := -1, vocabulary := [] } :=
  ⟨rfl, fun _ => rfl, rfl⟩

/-- Claim C5, counterexample: a correct answer on an already-learned word
does change progress fields — `correctCount` is incremented (3 becomes 4)
and `lastReview`/`nextReview` move to the answer time. -/
theorem answer_learned_changes_fields :
    answerTransition ⟨true, 3, 0, 0⟩ true 1000 ≠ ⟨true, 3, 0, 0⟩
    ∧ (answerTransition ⟨true, 3, 0, 0⟩ true 1000).correctCount = 4
    ∧ (answerTransition ⟨true, 3, 0, 0⟩ true 1000).lastReview = 1000 := by
  refine ⟨?_, by decide, by decide⟩
  intro h
  have : (answerTransition ⟨true, 3, 0, 0⟩ true 1000).correctCount = 3 := by
    rw [h]
  revert this
  decide

/-- Claim C5 (amended): mastery is monotone — a correct answer never sets
`learned` back to `false`; but a correct answer on a learned word still
updates progress fields: `correctCount` is incremented and `lastReview`
becomes the answer time. -/
theorem mastery_monotone (wp : WordProgress) (now : Int)
    (h : wp.learned = true) :
    (answerTransition wp true now).learned = true
    ∧ (answerTransition wp true now).correctCount = wp.correctCount + 1
    ∧ (answerTransition wp true now).lastReview = now := by
  by_cases hc : wp.correctCount + 1 ≥ 3
  · simp [answerTransition, hc]
  · simp [answerTransition, hc, h]

/-- Claim C5 witness. -/
theorem mastery_monotone_witness :
    (answerTransition ⟨true, 3, 100, 200⟩ true 999).learned = true
    ∧ (answerTransition ⟨true, 3, 100, 200⟩ true 999).correctCount = 3 + 1
    ∧ (answerTransition ⟨true, 3, 100, 200⟩ true 999).lastReview = 999 :=
  mastery_monotone ⟨true, 3, 100, 200⟩ 999 rfl

/-- Claim C6: the due-set computation is pure and deterministic — two
calls on unchanged inputs give the same ordered list — and it is a stable
filter of the vocabulary list, preserving its original relative order. -/
theorem getWordsToReview_pure_stable (vocab : List Vocab)
    (progress : ProgressMap) (now : Int) :
    getWordsToReview vocab progress now = getWordsToReview vocab progress now
    ∧ List.Sublist (getWordsToReview vocab progress now) vocab :=
  ⟨rfl, List.filter_sublist vocab⟩

theorem sessionRun_complete_of_le (vocab : List Vocab) :
    ∀ (answers : List (String × Bool × Int)) (progress : ProgressMap)
      (currentWord : Nat), answers ≠ [] →
      vocab.length ≤ currentWord + answers.length →
      sessionRun vocab progress currentWord answers = true := by
  intro answers
  induction answers with
  | nil => intro _ _ hne _; exact absurd rfl hne
  | cons a rest ih =>
      intro progress currentWord _ hlen
      obtain ⟨word, knew, now⟩ := a
      simp only [sessionRun, answerWordStep]
      split
      · rfl
      · rename_i v heq
        have hlt : currentWord + 1 <
            (getWordsToReview vocab (recordAnswer word knew progress now)
              now).length := by
          by_contra hnlt
          rw [dif_neg hnlt] at heq
          exact Option.noConfusion heq
        refine ih _ _ ?_ ?_
        · intro hrest
          subst hrest
          have hle := getWordsToReview_length_le vocab
            (recordAnswer word knew progress now) now
          simp only [List.length_cons, List.length_nil] at hlen
          omega
        · simp only [List.length_cons] at hlen
          omega

/-- Claim C7: a study session terminates — `showNextWord` signals
completion when the due-set is empty, and a session never loops
infinitely: starting from cursor 0, the completion signal is raised
within at most `vocab.length + 1` answers, whatever the answers are. -/
theorem session_terminates :
    (∀ (vocab : List Vocab) (progress : ProgressMap) (now : Int),
        getWordsToReview vocab progress now = [] →
        showNextWord vocab progress now = none)
    ∧ (∀ (vocab : List Vocab) (progress : ProgressMap) (currentWord : Nat)
        (word : String) (knew : Bool) (now : Int),
        getWordsToReview vocab (recordAnswer word knew progress now) now = [] →
        (answerWordStep vocab progress currentWord word knew now).2.2 = none)
    ∧ (∀ (vocab : List Vocab) (progress : ProgressMap)
        (answers : List (String × Bool × Int)),
        vocab.length < answers.length →
        sessionRun vocab progress 0 answers = true) := by
  refine ⟨?_, ?_, ?_⟩
  · intro vocab progress now h
    unfold showNextWord
    rw [h]
  · intro vocab progress currentWord word knew now h
    simp [answerWordStep, h]
  · intro vocab progress answers hlen
    refine sessionRun_complete_of_le vocab answers progress 0 ?_ ?_
    · intro he
      subst he
      simp at hlen
    · omega

/-- Claim C7 witness. -/
theorem session_terminates_witness :
    showNextWord [] [] 0 = none
    ∧ (answerWordStep [] [] 0 "cat" true 7).2.2 = none
    ∧ sessionRun [⟨"cat", "c", "e"⟩] [] 0
        [("cat", false, 1), ("cat", true, 2)] = true :=
  ⟨session_terminates.1 [] [] 0 rfl,
   session_terminates.2.1 [] [] 0 "cat" true 7 rfl,
   session_terminates.2.2 [⟨"cat", "c", "e"⟩] []
     [("cat", false, 1), ("cat", true, 2)] (by decide)⟩

/-- Claim C8: `lastReadSentence` is monotonically non-decreasing under
`updateReadProgress`, and its initial default value is -1. -/
theorem lastReadSentence_monotone :
    (∀ (lastReadSentence maxIndex : Int),
        lastReadSentence ≤ updateReadProgress lastReadSentence maxIndex)
    ∧ defaultBookProgress.lastReadSentence = -1 := by
  refine ⟨fun l m => ?_, rfl⟩
  rw [updateReadProgress]
  split_ifs <;> omega

/-- Claim C9: `deleteBook` removes every book with the given id from the
stored list, purges that book's persisted progress record, and returns
`true`; when no book with that id exists it returns `false` and leaves the
storage untouched. -/
theorem deleteBook_removes_and_purges (st : BookStorage) (bookId : String) :
    ((∃ b ∈ st.books, b.id = bookId) →
        (deleteBook st bookId).2 = true
        ∧ (∀ b ∈ (deleteBook st bookId).1.books, b.id ≠ bookId)
        ∧ lookupBookProgress (deleteBook st bookId).1.progress bookId = none)
    ∧ ((¬ ∃ b ∈ st.books, b.id = bookId) →
        deleteBook st bookId = (st, false)) := by
  constructor
  · rintro ⟨b, hb, hid⟩
    have hne : (st.books.filter (fun b => decide (b.id ≠ bookId))).length
        ≠ st.books.length := by
      intro heq
      have hfe : st.books.filter (fun b => decide (b.id ≠ bookId)) = st.books :=
        (List.filter_sublist st.books).eq_of_length heq
      rw [← hfe] at hb
      have hp := (List.mem_filter.mp hb).2
      simp [hid] at hp
    rw [deleteBook]
    rw [if_neg hne]
    refine ⟨rfl, ?_, lookupBookProgress_filter_ne st.progress bookId⟩
    intro b' hb'
    simpa using (List.mem_filter.mp hb').2
  · intro hnone
    have hall : ∀ b ∈ st.books, decide (b.id ≠ bookId) = true := by
      intro b hb
      exact decide_eq_true fun e => hnone ⟨b, hb, e⟩
    rw [deleteBook]
    rw [if_pos (by rw [List.filter_eq_self.mpr hall])]

/-- Claim C9 witness. -/
theorem deleteBook_removes_and_purges_witness :
    ((deleteBook ⟨[⟨"b1", "t", "d", "i", [], []⟩],
        [("b1", defaultBookProgress)]⟩ "b1").2 = true
      ∧ (∀ b ∈ (deleteBook ⟨[⟨"b1", "t", "d", "i", [], []⟩],
          [("b1", defaultBookProgress)]⟩ "b1").1.books, b.id ≠ "b1")
      ∧ lookupBookProgress (deleteBook ⟨[⟨"b1", "t", "d", "i", [], []⟩],
          [("b1", defaultBookProgress)]⟩ "b1").1.progress "b1" = none)
    ∧ deleteBook ⟨[⟨"b1", "t", "d", "i", [], []⟩], []⟩ "b2"
        = (⟨[⟨"b1", "t", "d", "i", [], []⟩], []⟩, false) :=
  ⟨(deleteBook_removes_and_purges ⟨[⟨"b1", "t", "d", "i", [], []⟩],
      [("b1", defaultBookProgress)]⟩ "b1").1
      ⟨⟨"b1", "t", "d", "i", [], []⟩, by decide, rfl⟩,
   (deleteBook_removes_and_purges ⟨[⟨"b1", "t", "d", "i", [], []⟩], []⟩
      "b2").2 (by decide)⟩

/-- Claim C10: a correct answer on a word with `learned = true` but
`correctCount + 1 < 3` (e.g. after an incorrect answer reset the counter)
schedules the 2-day not-yet-mastered interval while leaving
`learned = true`. -/
theorem answerTransition_learned_two_day (wp : WordProgress) (now : Int)
    (h : wp.learned = true) (hc : wp.correctCount + 1 < 3) :
    (answerTransition wp true now).nextReview = now + 172800000
    ∧ (answerTransition wp true now).learned = true := by
  have hc' : ¬ wp.correctCount + 1 ≥ 3 := by omega
  norm_num [answerTransition, hc', h]

/-- Claim C10 witness. -/
theorem answerTransition_learned_two_day_witness :
    (answerTransition ⟨true, 0, 0, 0⟩ true 5).nextReview = 5 + 172800000
    ∧ (answerTransition ⟨true, 0, 0, 0⟩ true 5).learned = true :=
  answerTransition_learned_two_day ⟨true, 0, 0, 0⟩ 5 rfl (by decide)

/-- C3 witness. -/
theorem recordAnswer_incorrect_resets_witness :
    lookupProgress (recordAnswer "cat" false [("cat", ⟨false, 2, 0, 0⟩)] 5000)
        "cat"
      = some ⟨false, 0, 5000, 5000 + 3600000⟩ :=
  recordAnswer_incorrect_resets [("cat", ⟨false, 2, 0, 0⟩)] "cat" 5000
    ⟨false, 2, 0, 0⟩ (by decide)
